import Mathlib

/-!
Verification of the synthetic-data generation and feature-transformation
procedure of the feature-store workshop notebooks, against its
natural-language specification.  The Python notebook code is shallowly
embedded: pure helper functions become Lean functions, the seeded global
random state becomes explicit state passing through an abstract operations
record, and wall-clock event times become an explicit input stream.
-/

namespace FSW

/-! ### Age binning (transformer, customers table)

The notebook runs
  bins = [18, 30, 40, 50, 60, 70, 90]
  pd.cut(customers_df.age, bins, labels=labels, include_lowest=True)
followed by pd.get_dummies on the resulting categorical column.
-/

/-- Position of a value among right-closed cut intervals: interval number i
is (b1, b2] for consecutive bin edges b1, b2. Returns none when the value
falls in no interval. -/
def pdCutAux : List ℤ → ℤ → ℕ → Option ℕ
  | b1 :: b2 :: rest, v, i =>
      if b1 < v ∧ v ≤ b2 then some i else pdCutAux (b2 :: rest) v (i + 1)
  | _, _, _ => none

/-- Embedding of pd.cut with include_lowest=True and the default right=True:
the first interval is [bs0, bs1], every later interval is left-open
right-closed; a value outside every interval becomes NaN, modelled as none. -/
def pdCut (bs : List ℤ) (v : ℤ) : Option ℕ :=
  match bs with
  | b1 :: b2 :: rest =>
      if b1 ≤ v ∧ v ≤ b2 then some 0 else pdCutAux (b2 :: rest) v 1
  | _ => none

/-- The bin edges of the notebook: bins = [18, 30, 40, 50, 60, 70, 90]. -/
def ageBins : List ℤ := [18, 30, 40, 50, 60, 70, 90]

/-- The bucket labels of the notebook. -/
def ageLabels : List String := ["18-29", "30-39", "40-49", "50-59", "60-69", "70-plus"]

/-- Embedding of pd.get_dummies on the cut column: one indicator column per
bucket, in bucket order; a NaN row (none) yields all zeros. -/
def oneHot (k : ℕ) (bucket : Option ℕ) : List ℕ :=
  (List.range k).map (fun j => if bucket = some j then 1 else 0)

/-- The six age-bucket indicator columns the transformer derives for a raw
age value. -/
def ageDummies (age : ℤ) : List ℕ := oneHot ageLabels.length (pdCut ageBins age)

/-! ### Synthetic data generation

The notebook seeds the random module, numpy and faker from one constant
SEED and then draws every attribute from that seeded state, except the
event_time fields which call datetime.now().  We embed the seeded
random/faker state as an abstract state type with pure draw operations,
and the wall clock as an input stream of strings indexed by record number.
-/

/-- Abstract seeded random source covering the random-module and faker
draws the generator performs.  Every operation is a pure function of the
state, reflecting that random.seed/np.random.seed/faker.seed_instance make
the whole draw sequence a function of the seed. -/
structure FakerOps (σ : Type) where
  seedInstance : ℤ → σ
  profile : σ → (String × String) × σ
  usState : σ → String × σ
  randint : ℤ → ℤ → σ → ℤ × σ
  boolean : σ → Bool × σ
  dateTimeBetween : String → String → σ → String × σ
  choiceIdx : ℕ → σ → ℕ × σ
  randomUnit : σ → ℚ × σ

/-- Embedding of random.choice(seq): CPython evaluates
seq[_randbelow(len(seq))]; an index outside the sequence (only possible
for an empty sequence) raises IndexError, modelled as none. -/
def pyChoice (lst : List α) (idx : ℕ) : Option α := lst.get? idx

/-- Embedding of the Customer entity of the notebook. -/
structure Customer where
  customer_id : String
  name : String
  sex : String
  state : String
  age : ℤ
  is_married : Bool
  active_since : String
  event_time : String
  deriving DecidableEq, Repr

/-- Embedding of the Order entity of the notebook. -/
structure Order where
  order_id : String
  customer_id : String
  product_id : String
  purchase_amount : ℚ
  is_reordered : ℕ
  purchased_on : String
  event_time : String
  deriving DecidableEq, Repr

/-- Embedding of generate_customer(i): one faker.profile() call yields name
and sex, then faker.state(), random.randint(18, 91), faker.boolean() and a
faker timestamp draw; event_time comes from the wall clock, not the seeded
state. -/
def generate_customer (ops : FakerOps σ) (i : ℕ) (clock : String) (s : σ) :
    Customer × σ :=
  let p := ops.profile s
  let st := ops.usState p.2
  let ag := ops.randint 18 91 st.2
  let mar := ops.boolean ag.2
  let act := ops.dateTimeBetween "2016-01-01 00:00:00" "2020-01-01 00:00:01" mar.2
  ({ customer_id := "C" ++ toString i,
     name := p.1.1.toLower,
     sex := p.1.2,
     state := st.1.toLower,
     age := ag.1,
     is_married := mar.1,
     active_since := act.1,
     event_time := clock }, act.2)

/-- Embedding of the loop
  for i in range(n): customers.append(generate_customer(i+1))
starting at loop counter i with k iterations left. -/
def generateCustomersAux (ops : FakerOps σ) (clocks : ℕ → String) :
    ℕ → ℕ → σ → List Customer × σ
  | 0, _, s => ([], s)
  | k + 1, i, s =>
      let c := generate_customer ops (i + 1) (clocks i) s
      let rest := generateCustomersAux ops clocks k (i + 1) c.2
      (c.1 :: rest.1, rest.2)

/-- The three-element multiset the reorder flag is drawn from:
random.choice([1, 1, 0]). -/
def reorderChoices : List ℕ := [1, 1, 0]

/-- Python round to 2 decimal places on a rational, banker's convention
(round half to even) as used by round(random.random(), 2). -/
def roundHalfEven (x : ℚ) : ℤ :=
  if x - ⌊x⌋ = 1 / 2 then (if ⌊x⌋ % 2 = 0 then ⌊x⌋ else ⌊x⌋ + 1)
  else ⌊x + 1 / 2⌋

/-- Rounding a rational to two decimal digits, as round(x, 2). -/
def round2 (x : ℚ) : ℚ := (roundHalfEven (100 * x) : ℚ) / 100

/-- Embedding of generate_order(i): the customer and product foreign keys
are random.choice draws from the identifier pools, purchase_amount is
randint(1, 101) + round(random.random(), 2), is_reordered is
random.choice([1, 1, 0]); event_time comes from the wall clock.  An
out-of-range choice index (empty pool) aborts with none, as the IndexError
raised by random.choice would. -/
def generate_order (ops : FakerOps σ) (customer_ids product_ids : List String)
    (i : ℕ) (clock : String) (s : σ) : Option Order × σ :=
  let ci := ops.choiceIdx customer_ids.length s
  match pyChoice customer_ids ci.1 with
  | none => (none, ci.2)
  | some cid =>
    let pidx := ops.choiceIdx product_ids.length ci.2
    match pyChoice product_ids pidx.1 with
    | none => (none, pidx.2)
    | some pid =>
      let amt := ops.randint 1 101 pidx.2
      let frac := ops.randomUnit amt.2
      let ri := ops.choiceIdx reorderChoices.length frac.2
      match pyChoice reorderChoices ri.1 with
      | none => (none, ri.2)
      | some flag =>
        let pon := ops.dateTimeBetween "2020-01-01 00:01:01" "2021-06-01 00:00:01" ri.2
        (some { order_id := "O" ++ toString i,
                customer_id := cid,
                product_id := pid,
                purchase_amount := (amt.1 : ℚ) + round2 frac.1,
                is_reordered := flag,
                purchased_on := pon.1,
                event_time := clock }, pon.2)

/-- Embedding of the loop
  for i in range(n): orders.append(generate_order(i+1)). -/
def generateOrdersAux (ops : FakerOps σ) (customer_ids product_ids : List String)
    (clocks : ℕ → String) : ℕ → ℕ → σ → List (Option Order) × σ
  | 0, _, s => ([], s)
  | k + 1, i, s =>
      let o := generate_order ops customer_ids product_ids (i + 1) (clocks i) s
      let rest := generateOrdersAux ops customer_ids product_ids clocks k (i + 1) o.2
      (o.1 :: rest.1, rest.2)

/-- One full generation run of the notebook: seed the state, generate n
customers collecting their customer_id values into the pool, then generate
m orders whose foreign keys are drawn from that pool and from the product
identifiers loaded from the product mapping file. -/
structure GenRun where
  customers : List Customer
  orders : List (Option Order)
  deriving DecidableEq, Repr

/-- Embedding of the notebook run with counts n and m: the customer loop
runs first, its identifiers form customer_ids, and the order loop samples
from that pool and from product_ids. -/
def runGeneration (ops : FakerOps σ) (seed : ℤ) (n m : ℕ)
    (cclocks oclocks : ℕ → String) (product_ids : List String) : GenRun :=
  let s0 := ops.seedInstance seed
  let cs := generateCustomersAux ops cclocks n 0 s0
  let pool := cs.1.map (fun c => c.customer_id)
  let os := generateOrdersAux ops pool product_ids oclocks m 0 cs.2
  ⟨cs.1, os.1⟩

/-- The seed-reproducible attributes of a customer: everything except
event_time. -/
def stripCustomer (c : Customer) :
    String × String × String × String × ℤ × Bool × String :=
  (c.customer_id, c.name, c.sex, c.state, c.age, c.is_married, c.active_since)

/-- The seed-reproducible attributes of an order: everything except
event_time. -/
def stripOrder (o : Order) : String × String × String × ℚ × ℕ × String :=
  (o.order_id, o.customer_id, o.product_id, o.purchase_amount,
   o.is_reordered, o.purchased_on)

/-- A concrete instance of the random-source operations over state ℕ, used
to witness the generator theorems on concrete inputs. -/
def demoOps : FakerOps ℕ where
  seedInstance z := z.natAbs
  profile s := (("Jane Doe", "F"), s + 1)
  usState s := ("Texas", s + 1)
  randint a b s := (a + (s : ℤ) % (b - a + 1), s + 1)
  boolean s := (s % 2 == 0, s + 1)
  dateTimeBetween lo _ s := (lo, s + 1)
  choiceIdx n s := (s % n, s + 1)
  randomUnit s := (((s % 100 : ℕ) : ℚ) / 100, s + 1)

/-- The order produced by one generate_order call over the concrete random
source from state 0. -/
def demoOrder : Order :=
  { order_id := "O1", customer_id := "C1", product_id := "P1",
    purchase_amount := 303 / 100, is_reordered := 1,
    purchased_on := "2020-01-01 00:01:01", event_time := "t" }

/-- The order produced by the concrete one-customer one-order generation
run with seed 123. -/
def demoRunOrder : Order :=
  { order_id := "O1", customer_id := "C1", product_id := "P1",
    purchase_amount := 3031 / 100, is_reordered := 1,
    purchased_on := "2020-01-01 00:01:01", event_time := "t" }

/-! ### Min-max scaling (transformer)

The notebook scales the n_days_active, n_days_since_last_purchase and
purchase_amount columns with sklearn MinMaxScaler.fit_transform at the
default feature range (0, 1): scaled = (x - min(x)) / (max(x) - min(x)),
where sklearn replaces a zero data range by 1 (handle_zeros_in_scale), so
a constant column is scaled by dividing by 1.
-/

/-- Smallest value of a column, the data_min of the fit step. -/
def listMin : List ℚ → ℚ
  | [] => 0
  | [x] => x
  | x :: y :: t => min x (listMin (y :: t))

/-- Largest value of a column, the data_max of the fit step. -/
def listMax : List ℚ → ℚ
  | [] => 0
  | [x] => x
  | x :: y :: t => max x (listMax (y :: t))

/-- The divisor MinMaxScaler uses: the data range max - min, with a zero
range replaced by 1 as sklearn handle_zeros_in_scale does. -/
def scaleRange (xs : List ℚ) : ℚ :=
  if listMax xs - listMin xs = 0 then 1 else listMax xs - listMin xs

/-- Embedding of MinMaxScaler.fit_transform on one column with the default
feature range (0, 1). -/
def minMaxScale (xs : List ℚ) : List ℚ :=
  xs.map (fun x => (x - listMin xs) / scaleRange xs)

/-! ### Label encoding (transformer)

The notebook reuses one LabelEncoder object and calls fit_transform on the
sex, is_married and is_reordered columns in turn.  sklearn fit sets
classes to np.unique of the column, the sorted list of its distinct
values, and transform maps each value to its index among the classes.
-/

/-- np.unique of a column: the sorted list of its distinct values. -/
def npUnique {α : Type} [LinearOrder α] (xs : List α) : List α :=
  List.insertionSort (· ≤ ·) xs.dedup

/-- The mutable state of the shared LabelEncoder object: the classes set
by the latest fit. -/
structure LabelEncoderState (α : Type) where
  classes : List α

/-- LabelEncoder.fit: overwrite the classes with np.unique of the column,
discarding whatever a previous fit left behind. -/
def LabelEncoder.fit {α : Type} [LinearOrder α] (_st : LabelEncoderState α)
    (xs : List α) : LabelEncoderState α :=
  ⟨npUnique xs⟩

/-- LabelEncoder.transform: map each value to its index in classes. -/
def LabelEncoder.transform {α : Type} [LinearOrder α] (st : LabelEncoderState α)
    (xs : List α) : List ℕ :=
  xs.map (fun x => st.classes.indexOf x)

/-- LabelEncoder.fit_transform: fit on the column, then transform it. -/
def LabelEncoder.fit_transform {α : Type} [LinearOrder α] (st : LabelEncoderState α)
    (xs : List α) : List ℕ × LabelEncoderState α :=
  (LabelEncoder.transform (LabelEncoder.fit st xs) xs, LabelEncoder.fit st xs)

/-! ### Ingestion assertion (batch ingestion script) -/

/-- The response of fg.ingest: the zero-based indices of the rows that
failed to be ingested. -/
structure IngestResponse where
  failed_rows : List ℕ

/-- Embedding of the tail of ingest_data in the sklearn batch-ingestion
script: the fg.ingest call returns a response and the script then runs
assert len(response.failed_rows) == 0, so a nonzero failure count raises
AssertionError and a zero count completes normally. -/
def ingest_data (ingest : List String → IngestResponse) (rows : List String) :
    Except String Unit :=
  let response := ingest rows
  if response.failed_rows.length = 0 then Except.ok ()
  else Except.error "AssertionError"

/-! ### Moving the target column (model-training notebook) -/

/-- Embedding of df.pop(name) on a table held as a list of named columns:
remove the named column, returning its values and the remaining columns in
their original order; none when the column is absent, as pandas raises
KeyError. -/
def popColumn (name : String) :
    List (String × List ℚ) → Option (List ℚ × List (String × List ℚ))
  | [] => none
  | c :: rest =>
      if c.1 = name then some (c.2, rest)
      else (popColumn name rest).map (fun r => (r.1, c :: r.2))

/-- Embedding of
  first_column = df.pop(name); df.insert(0, name, first_column)
from the model-training notebook: move the named column to position 0. -/
def moveToFront (name : String) (t : List (String × List ℚ)) :
    Option (List (String × List ℚ)) :=
  (popColumn name t).map (fun r => (name, r.1) :: r.2)

end FSW

namespace FSW

/-- The state a single customer generation leaves behind does not depend on
the wall-clock string it was given. -/
theorem generate_customer_state_clock (ops : FakerOps σ) (i : ℕ) (c₁ c₂ : String)
    (s : σ) : (generate_customer ops i c₁ s).2 = (generate_customer ops i c₂ s).2 := rfl

/-- The seed-reproducible attributes of a generated customer do not depend
on the wall-clock string. -/
theorem generate_customer_strip_clock (ops : FakerOps σ) (i : ℕ) (c₁ c₂ : String)
    (s : σ) : stripCustomer (generate_customer ops i c₁ s).1
      = stripCustomer (generate_customer ops i c₂ s).1 := rfl

/-- The customer loop with two different wall clocks produces the same
stripped attribute rows and the same final random state. -/
theorem generateCustomersAux_clock (ops : FakerOps σ) (c₁ c₂ : ℕ → String) :
    ∀ (k i : ℕ) (s : σ),
      (generateCustomersAux ops c₁ k i s).1.map stripCustomer
        = (generateCustomersAux ops c₂ k i s).1.map stripCustomer
      ∧ (generateCustomersAux ops c₁ k i s).2 = (generateCustomersAux ops c₂ k i s).2 := by
  intro k
  induction k with
  | zero => intro i s; exact ⟨rfl, rfl⟩
  | succ k ih =>
      intro i s
      have hs : (generate_customer ops (i + 1) (c₂ i) s).2
          = (generate_customer ops (i + 1) (c₁ i) s).2 := rfl
      have hc : stripCustomer (generate_customer ops (i + 1) (c₂ i) s).1
          = stripCustomer (generate_customer ops (i + 1) (c₁ i) s).1 := rfl
      obtain ⟨h1, h2⟩ := ih (i + 1) ((generate_customer ops (i + 1) (c₁ i) s).2)
      simp only [generateCustomersAux, List.map_cons]
      rw [hs, hc]
      exact ⟨by rw [h1], h2⟩

/-- A single order generation with two different wall clocks produces the
same stripped attributes and the same final random state. -/
theorem generate_order_clock (ops : FakerOps σ) (cids pids : List String) (i : ℕ)
    (c₁ c₂ : String) (s : σ) :
    (generate_order ops cids pids i c₁ s).1.map stripOrder
      = (generate_order ops cids pids i c₂ s).1.map stripOrder
    ∧ (generate_order ops cids pids i c₁ s).2 = (generate_order ops cids pids i c₂ s).2 := by
  simp only [generate_order]
  rcases pyChoice cids (ops.choiceIdx cids.length s).1 with _ | cid
  · exact ⟨rfl, rfl⟩
  rcases pyChoice pids (ops.choiceIdx pids.length (ops.choiceIdx cids.length s).2).1
    with _ | pid
  · exact ⟨rfl, rfl⟩
  rcases pyChoice reorderChoices
      (ops.choiceIdx reorderChoices.length
        (ops.randomUnit
          (ops.randint 1 101
            (ops.choiceIdx pids.length (ops.choiceIdx cids.length s).2).2).2).2).1
    with _ | flag
  · exact ⟨rfl, rfl⟩
  · exact ⟨rfl, rfl⟩

/-- The order loop with two different wall clocks produces the same
stripped attribute rows and the same final random state. -/
theorem generateOrdersAux_clock (ops : FakerOps σ) (cids pids : List String)
    (c₁ c₂ : ℕ → String) :
    ∀ (k i : ℕ) (s : σ),
      (generateOrdersAux ops cids pids c₁ k i s).1.map (Option.map stripOrder)
        = (generateOrdersAux ops cids pids c₂ k i s).1.map (Option.map stripOrder)
      ∧ (generateOrdersAux ops cids pids c₁ k i s).2
        = (generateOrdersAux ops cids pids c₂ k i s).2 := by
  intro k
  induction k with
  | zero => intro i s; exact ⟨rfl, rfl⟩
  | succ k ih =>
      intro i s
      obtain ⟨ho, hsord⟩ := generate_order_clock ops cids pids (i + 1) (c₁ i) (c₂ i) s
      obtain ⟨h1, h2⟩ := ih (i + 1) ((generate_order ops cids pids (i + 1) (c₁ i) s).2)
      simp only [generateOrdersAux, List.map_cons]
      rw [← hsord]
      exact ⟨by rw [ho, h1], h2⟩

/-- The customer identifier of a customer is the first component of its
stripped attributes, so equal stripped rows give equal identifier pools. -/
theorem map_customer_id_eq_map_fst_strip (cs : List Customer) :
    cs.map (fun c => c.customer_id) = (cs.map stripCustomer).map Prod.fst := by
  simp [stripCustomer]

/-- A successful random.choice draw returns an element of the sequence. -/
theorem pyChoice_mem {lst : List α} {idx : ℕ} {a : α} (h : pyChoice lst idx = some a) :
    a ∈ lst := List.get?_mem h

/-- Decomposition of a successful order generation: the foreign keys are
choice draws from the two pools, the reorder flag is a choice draw from
the three-element multiset, and the purchase amount is a randint(1, 101)
draw plus a rounded unit random draw. -/
theorem generate_order_spec (ops : FakerOps σ) (cids pids : List String) (i : ℕ)
    (clock : String) (s : σ) (o : Order) (s2 : σ)
    (h : generate_order ops cids pids i clock s = (some o, s2)) :
    o.customer_id ∈ cids ∧ o.product_id ∈ pids ∧ o.is_reordered ∈ reorderChoices
    ∧ ∃ sa : σ, o.purchase_amount
        = ((ops.randint 1 101 sa).1 : ℚ)
          + round2 (ops.randomUnit (ops.randint 1 101 sa).2).1 := by
  simp only [generate_order] at h
  split at h
  · simp at h
  · rename_i cid hcid
    split at h
    · simp at h
    · rename_i pid hpid
      split at h
      · simp at h
      · rename_i flag hflag
        rw [Prod.mk.injEq, Option.some.injEq] at h
        obtain ⟨h1, -⟩ := h
        subst h1
        refine ⟨pyChoice_mem hcid, pyChoice_mem hpid, pyChoice_mem hflag,
          ⟨(ops.choiceIdx pids.length (ops.choiceIdx cids.length s).2).2, rfl⟩⟩

/-- Every successful order of the order loop has both foreign keys inside
the pools the loop was given. -/
theorem generateOrdersAux_fk (ops : FakerOps σ) (cids pids : List String)
    (clocks : ℕ → String) :
    ∀ (k i : ℕ) (s : σ) (o : Order),
      some o ∈ (generateOrdersAux ops cids pids clocks k i s).1 →
      o.customer_id ∈ cids ∧ o.product_id ∈ pids := by
  intro k
  induction k with
  | zero => intro i s o h; simp [generateOrdersAux] at h
  | succ k ih =>
      intro i s o h
      simp only [generateOrdersAux, List.mem_cons] at h
      rcases h with h | h
      · obtain ⟨h1, h2, -, -⟩ :=
          generate_order_spec ops cids pids (i + 1) (clocks i) s o
            ((generate_order ops cids pids (i + 1) (clocks i) s).2)
            (by rw [h])
        exact ⟨h1, h2⟩
      · exact ih (i + 1) _ o h

/-- The concrete random source meets the contract of random.randint(1, 101). -/
theorem demoOps_randint_mem (s : ℕ) :
    1 ≤ (demoOps.randint 1 101 s).1 ∧ (demoOps.randint 1 101 s).1 ≤ 101 := by
  have h0 : (0 : ℤ) ≤ (s : ℤ) % 101 := Int.emod_nonneg _ (by norm_num)
  have h1 : (s : ℤ) % 101 < 101 := Int.emod_lt_of_pos _ (by norm_num)
  constructor
  · simp only [demoOps]; omega
  · simp only [demoOps]; omega

/-- The concrete random source meets the contract of random.random(). -/
theorem demoOps_randomUnit_mem (s : ℕ) :
    0 ≤ (demoOps.randomUnit s).1 ∧ (demoOps.randomUnit s).1 < 1 := by
  constructor
  · simp only [demoOps]; positivity
  · simp only [demoOps]
    rw [div_lt_one (by norm_num)]
    exact_mod_cast Nat.mod_lt s (by norm_num)

/-- Banker's rounding of a rational in [0, 100) lands in [0, 100]. -/
theorem roundHalfEven_bounds {x : ℚ} (h0 : 0 ≤ x) (h1 : x < 100) :
    0 ≤ roundHalfEven x ∧ roundHalfEven x ≤ 100 := by
  have hfl0 : (0 : ℤ) ≤ ⌊x⌋ := Int.floor_nonneg.mpr h0
  have hfl1 : ⌊x⌋ < 100 := by
    have := Int.floor_lt.mpr (show x < ((100 : ℤ) : ℚ) by exact_mod_cast h1)
    exact this
  unfold roundHalfEven
  split
  · split
    · omega
    · omega
  · have ha : (0 : ℤ) ≤ ⌊x + 1 / 2⌋ := Int.floor_nonneg.mpr (by linarith)
    have hb : ⌊x + 1 / 2⌋ < 101 := by
      refine Int.floor_lt.mpr ?_
      push_cast
      linarith
    omega

/-- Rounding a unit random draw to two decimals lands in [0, 1] and has an
exact two-decimal representation. -/
theorem round2_unit_bounds {f : ℚ} (h0 : 0 ≤ f) (h1 : f < 1) :
    0 ≤ round2 f ∧ round2 f ≤ 1 ∧ round2 f = ((roundHalfEven (100 * f) : ℤ) : ℚ) / 100 := by
  obtain ⟨ha, hb⟩ := roundHalfEven_bounds (x := 100 * f) (by linarith) (by linarith)
  refine ⟨?_, ?_, rfl⟩
  · unfold round2
    positivity
  · unfold round2
    rw [div_le_one (by norm_num)]
    exact_mod_cast hb

/-- Banker's rounding fixes integer inputs. -/
theorem roundHalfEven_intCast (n : ℤ) : roundHalfEven (n : ℚ) = n := by
  unfold roundHalfEven
  rw [Int.floor_intCast]
  rw [if_neg (by norm_num)]
  rw [Int.floor_eq_iff]
  constructor <;> norm_num

/-- Rounding an exact two-decimal rational to two decimals is the
identity. -/
theorem round2_natCast_div_100 (k : ℕ) : round2 ((k : ℚ) / 100) = (k : ℚ) / 100 := by
  unfold round2
  rw [show (100 : ℚ) * ((k : ℚ) / 100) = ((k : ℤ) : ℚ) by push_cast; ring]
  rw [roundHalfEven_intCast]
  push_cast
  ring

/-- Concrete evaluation of a single order generation. -/
theorem demo_generate_order_eq :
    generate_order demoOps ["C1"] ["P1"] 1 "t" 0 = (some demoOrder, 6) := by
  simp only [generate_order, demoOps, pyChoice, reorderChoices, demoOrder]
  norm_num [List.get?]
  refine ⟨rfl, ?_⟩
  have h := round2_natCast_div_100 3
  norm_num at h
  rw [h]
  norm_num

/-- Concrete evaluation of the orders of the one-customer one-order run. -/
theorem demo_run_orders_eq :
    (runGeneration demoOps 123 1 1 (fun _ => "t") (fun _ => "t") ["P1"]).orders
      = [some demoRunOrder] := by
  simp only [runGeneration, generateCustomersAux, generateOrdersAux, generate_customer,
    generate_order, demoOps, pyChoice, reorderChoices, demoRunOrder]
  norm_num [List.get?]
  refine ⟨rfl, rfl, ?_⟩
  have h := round2_natCast_div_100 31
  norm_num at h
  rw [h]
  norm_num

/-- Every column value is at least the fitted data_min. -/
theorem listMin_le_of_mem : ∀ (xs : List ℚ) (x : ℚ), x ∈ xs → listMin xs ≤ x
  | [], x, hx => absurd hx (List.not_mem_nil x)
  | [y], x, hx => by
      rw [List.mem_singleton.mp hx]
      simp [listMin]
  | y :: z :: t, x, hx => by
      rcases List.mem_cons.mp hx with h | h
      · rw [h] at hx ⊢
        simp only [listMin]
        exact min_le_left _ _
      · simp only [listMin]
        exact le_trans (min_le_right _ _) (listMin_le_of_mem (z :: t) x h)

/-- Every column value is at most the fitted data_max. -/
theorem le_listMax_of_mem : ∀ (xs : List ℚ) (x : ℚ), x ∈ xs → x ≤ listMax xs
  | [], x, hx => absurd hx (List.not_mem_nil x)
  | [y], x, hx => by
      rw [List.mem_singleton.mp hx]
      simp [listMax]
  | y :: z :: t, x, hx => by
      rcases List.mem_cons.mp hx with h | h
      · rw [h] at hx ⊢
        simp only [listMax]
        exact le_max_left _ _
      · simp only [listMax]
        exact le_trans (le_listMax_of_mem (z :: t) x h) (le_max_right _ _)

/-- On a sorted duplicate-free list, indexOf is strictly monotone in the
value. -/
theorem indexOf_lt_indexOf_of_sorted {α : Type} [LinearOrder α] :
    ∀ (l : List α), l.Sorted (· ≤ ·) → l.Nodup → ∀ a ∈ l, ∀ b ∈ l, a < b →
      l.indexOf a < l.indexOf b
  | [], _, _, a, ha, _, _, _ => absurd ha (List.not_mem_nil a)
  | c :: t, hs, hn, a, ha, b, hb, hab => by
      obtain ⟨hct, hts⟩ := List.sorted_cons.mp hs
      obtain ⟨hcn, htn⟩ := List.nodup_cons.mp hn
      by_cases hac : a = c
      · have hbc : b ≠ c := by
          intro hbc
          rw [hac, hbc] at hab
          exact lt_irrefl c hab
        have hbt : b ∈ t := (List.mem_cons.mp hb).resolve_left hbc
        rw [hac, List.indexOf_cons_self, List.indexOf_cons_ne _ (by simpa using hbc.symm)]
        exact Nat.succ_pos _
      · have hat : a ∈ t := (List.mem_cons.mp ha).resolve_left hac
        have hbc : b ≠ c := by
          intro hbc
          have := hct a hat
          rw [hbc] at hab
          exact absurd hab (not_lt.mpr this)
        have hbt : b ∈ t := (List.mem_cons.mp hb).resolve_left hbc
        rw [List.indexOf_cons_ne _ (by simpa using Ne.symm hac),
          List.indexOf_cons_ne _ (by simpa using hbc.symm)]
        exact Nat.succ_lt_succ (indexOf_lt_indexOf_of_sorted t hts htn a hat b hbt hab)

/-- np.unique produces a sorted, duplicate-free list with the same members
as the column. -/
theorem npUnique_spec {α : Type} [LinearOrder α] (xs : List α) :
    (npUnique xs).Sorted (· ≤ ·) ∧ (npUnique xs).Nodup
    ∧ ∀ a, (a ∈ npUnique xs ↔ a ∈ xs) := by
  refine ⟨List.sorted_insertionSort _ _, ?_, ?_⟩
  · exact ((List.perm_insertionSort _ _).symm).nodup (List.nodup_dedup xs)
  · intro a
    simp [npUnique, List.mem_insertionSort, List.mem_dedup]

/-- Popping the first occurrence of a column keeps every other column, in
order, with its values. -/
theorem popColumn_append (name : String) (col : List ℚ)
    (xs ys : List (String × List ℚ)) (hx : ∀ p ∈ xs, p.1 ≠ name) :
    popColumn name (xs ++ (name, col) :: ys) = some (col, xs ++ ys) := by
  induction xs with
  | nil => simp [popColumn]
  | cons c t ih =>
      have hc : c.1 ≠ name := hx c (List.mem_cons_self c t)
      simp [popColumn, hc, ih (fun p hp => hx p (List.mem_cons_of_mem c hp))]

end FSW

/-- C3: every order produced by a generation run draws its customer_id from
the pool of previously generated customer identifiers and its product_id
from the pool of product identifiers loaded from the product mapping file;
no generated order references an identifier outside these pools. -/
theorem order_foreign_keys_resolve {σ : Type} (ops : FSW.FakerOps σ) (seed : ℤ)
    (n m : ℕ) (cc oc : ℕ → String) (pids : List String) (o : FSW.Order)
    (h : some o ∈ (FSW.runGeneration ops seed n m cc oc pids).orders) :
    o.customer_id ∈ (FSW.runGeneration ops seed n m cc oc pids).customers.map
        (fun c => c.customer_id)
    ∧ o.product_id ∈ pids := by
  simp only [FSW.runGeneration] at h ⊢
  exact FSW.generateOrdersAux_fk ops _ pids oc m 0 _ o h

/-- Witness for C3: in a concrete run with one customer and one order over
the concrete random source, the generated order resolves to the generated
customer identifier C1 and to the product identifier P1. -/
theorem order_foreign_keys_resolve_witness :
    FSW.demoRunOrder.customer_id
      ∈ (FSW.runGeneration FSW.demoOps 123 1 1 (fun _ => "t") (fun _ => "t")
          ["P1"]).customers.map (fun c => c.customer_id)
    ∧ FSW.demoRunOrder.product_id ∈ ["P1"] :=
  order_foreign_keys_resolve FSW.demoOps 123 1 1 (fun _ => "t") (fun _ => "t") ["P1"]
    FSW.demoRunOrder (by rw [FSW.demo_run_orders_eq]; exact List.mem_singleton_self _)

/-- C7: the reorder flag of every generated order is a uniform draw from
the three-element multiset [1, 1, 0], so its value is always 0 or 1, and
among the three equally likely draw outcomes the value 1 occurs exactly
twice as often as the value 0. -/
theorem reorder_flag_skewed_choice {σ : Type} (ops : FSW.FakerOps σ)
    (cids pids : List String) (i : ℕ) (clock : String) (s : σ) (o : FSW.Order) (s2 : σ)
    (h : FSW.generate_order ops cids pids i clock s = (some o, s2)) :
    (o.is_reordered = 0 ∨ o.is_reordered = 1)
    ∧ ((List.range FSW.reorderChoices.length).filter
        (fun j => FSW.pyChoice FSW.reorderChoices j = some 1)).length
      = 2 * ((List.range FSW.reorderChoices.length).filter
        (fun j => FSW.pyChoice FSW.reorderChoices j = some 0)).length := by
  obtain ⟨-, -, hmem, -⟩ := FSW.generate_order_spec ops cids pids i clock s o s2 h
  constructor
  · simp only [FSW.reorderChoices, List.mem_cons, List.not_mem_nil, or_false] at hmem
    rcases hmem with h1 | h1 | h1 <;> simp [h1]
  · decide

/-- Witness for C7: the concrete generated order carries reorder flag 1,
and the uniform three-way draw yields 1 twice as often as 0. -/
theorem reorder_flag_skewed_choice_witness :
    (FSW.demoOrder.is_reordered = 0 ∨ FSW.demoOrder.is_reordered = 1)
    ∧ ((List.range FSW.reorderChoices.length).filter
        (fun j => FSW.pyChoice FSW.reorderChoices j = some 1)).length
      = 2 * ((List.range FSW.reorderChoices.length).filter
        (fun j => FSW.pyChoice FSW.reorderChoices j = some 0)).length :=
  reorder_flag_skewed_choice FSW.demoOps ["C1"] ["P1"] 1 "t" 0 FSW.demoOrder 6
    FSW.demo_generate_order_eq

/-- C10: whenever the random source honours the contracts of
random.randint(1, 101) (an integer in [1, 101]) and random.random() (a
rational in [0, 1)), the purchase amount of every generated order, being
that integer plus the unit draw rounded to two decimals, lies in the
closed interval [1, 102] and is an exact multiple of 1/100. -/
theorem purchase_amount_range {σ : Type} (ops : FSW.FakerOps σ)
    (hr : ∀ s : σ, 1 ≤ (ops.randint 1 101 s).1 ∧ (ops.randint 1 101 s).1 ≤ 101)
    (hf : ∀ s : σ, 0 ≤ (ops.randomUnit s).1 ∧ (ops.randomUnit s).1 < 1)
    (cids pids : List String) (i : ℕ) (clock : String) (s : σ) (o : FSW.Order) (s2 : σ)
    (h : FSW.generate_order ops cids pids i clock s = (some o, s2)) :
    1 ≤ o.purchase_amount ∧ o.purchase_amount ≤ 102
    ∧ ∃ k : ℤ, o.purchase_amount = (k : ℚ) / 100 := by
  obtain ⟨-, -, -, sa, hamt⟩ := FSW.generate_order_spec ops cids pids i clock s o s2 h
  obtain ⟨ha1, ha2⟩ := hr sa
  obtain ⟨hf1, hf2⟩ := hf (ops.randint 1 101 sa).2
  obtain ⟨hq1, hq2, hq3⟩ := FSW.round2_unit_bounds hf1 hf2
  have hc1 : (1 : ℚ) ≤ ((ops.randint 1 101 sa).1 : ℚ) := by exact_mod_cast ha1
  have hc2 : ((ops.randint 1 101 sa).1 : ℚ) ≤ 101 := by exact_mod_cast ha2
  refine ⟨by rw [hamt]; linarith, by rw [hamt]; linarith, ?_⟩
  refine ⟨(ops.randint 1 101 sa).1 * 100
    + FSW.roundHalfEven (100 * (ops.randomUnit (ops.randint 1 101 sa).2).1), ?_⟩
  rw [hamt, hq3]
  push_cast
  ring

/-- Witness for C10: the concrete generated order has purchase amount
303/100, which lies in [1, 102] and is a multiple of 1/100. -/
theorem purchase_amount_range_witness :
    1 ≤ FSW.demoOrder.purchase_amount ∧ FSW.demoOrder.purchase_amount ≤ 102
    ∧ ∃ k : ℤ, FSW.demoOrder.purchase_amount = (k : ℚ) / 100 :=
  purchase_amount_range FSW.demoOps FSW.demoOps_randint_mem FSW.demoOps_randomUnit_mem
    ["C1"] ["P1"] 1 "t" 0 FSW.demoOrder 6 FSW.demo_generate_order_eq

/-- C2: for every seed, customer count and order count, two generation runs
with the same seed and counts (but arbitrary, possibly different wall
clocks) produce identical values for every customer attribute and every
order attribute other than the event_time fields. -/
theorem generation_deterministic_modulo_event_time {σ : Type} (ops : FSW.FakerOps σ)
    (seed : ℤ) (n m : ℕ) (cc₁ cc₂ oc₁ oc₂ : ℕ → String) (pids : List String) :
    (FSW.runGeneration ops seed n m cc₁ oc₁ pids).customers.map FSW.stripCustomer
      = (FSW.runGeneration ops seed n m cc₂ oc₂ pids).customers.map FSW.stripCustomer
    ∧ (FSW.runGeneration ops seed n m cc₁ oc₁ pids).orders.map (Option.map FSW.stripOrder)
      = (FSW.runGeneration ops seed n m cc₂ oc₂ pids).orders.map (Option.map FSW.stripOrder) := by
  obtain ⟨hcs, hstate⟩ :=
    FSW.generateCustomersAux_clock ops cc₁ cc₂ n 0 (ops.seedInstance seed)
  have hpool :
      ((FSW.generateCustomersAux ops cc₁ n 0 (ops.seedInstance seed)).1).map
          (fun c => c.customer_id)
        = ((FSW.generateCustomersAux ops cc₂ n 0 (ops.seedInstance seed)).1).map
          (fun c => c.customer_id) := by
    rw [FSW.map_customer_id_eq_map_fst_strip, FSW.map_customer_id_eq_map_fst_strip, hcs]
  obtain ⟨hos, _⟩ :=
    FSW.generateOrdersAux_clock ops
      (((FSW.generateCustomersAux ops cc₁ n 0 (ops.seedInstance seed)).1).map
        (fun c => c.customer_id)) pids oc₁ oc₂ m 0
      ((FSW.generateCustomersAux ops cc₁ n 0 (ops.seedInstance seed)).2)
  constructor
  · simpa [FSW.runGeneration] using hcs
  · simp only [FSW.runGeneration]
    rw [← hpool, ← hstate]
    exact hos

/-- C1: the transformer was meant to bin ages 18..91 into half-open buckets
[18,30), [30,40), ..., [70,91] with exactly one indicator column set per
row, but pd.cut with edges ending at 90 and right-closed intervals leaves
age 91 (generated by randint(18, 91)) in no bucket, so its six indicator
columns are all 0 and sum to 0, and places age 30 in the bucket labelled
18-29 instead of 30-39. -/
theorem age_binning_misses_91_and_misplaces_30 :
    FSW.ageDummies 91 = [0, 0, 0, 0, 0, 0]
    ∧ (FSW.ageDummies 91).sum = 0
    ∧ FSW.pdCut FSW.ageBins 91 = none
    ∧ FSW.pdCut FSW.ageBins 30 = some 0
    ∧ FSW.ageLabels.get? 0 = some "18-29"
    ∧ (FSW.ageDummies 30).sum = 1 := by decide

/-- C4: for every non-degenerate column (max greater than min), every
value the min-max scaling step produces equals (x - min) / (max - min)
and lies in the closed interval [0, 1]; this scaling is what the
transformer applies to the n_days_active, n_days_since_last_purchase and
purchase_amount columns. -/
theorem min_max_scale_formula_and_range (xs : List ℚ)
    (h : FSW.listMin xs < FSW.listMax xs) :
    FSW.minMaxScale xs
      = xs.map (fun x => (x - FSW.listMin xs) / (FSW.listMax xs - FSW.listMin xs))
    ∧ ∀ y ∈ FSW.minMaxScale xs, 0 ≤ y ∧ y ≤ 1 := by
  have hne : FSW.listMax xs - FSW.listMin xs ≠ 0 := by
    intro h0
    rw [sub_eq_zero] at h0
    rw [h0] at h
    exact lt_irrefl _ h
  have hrange : FSW.scaleRange xs = FSW.listMax xs - FSW.listMin xs := by
    unfold FSW.scaleRange
    rw [if_neg hne]
  constructor
  · unfold FSW.minMaxScale
    rw [hrange]
  · intro y hy
    unfold FSW.minMaxScale at hy
    rw [List.mem_map] at hy
    obtain ⟨x, hx, hxy⟩ := hy
    rw [hrange] at hxy
    have hpos : 0 < FSW.listMax xs - FSW.listMin xs := sub_pos.mpr h
    constructor
    · rw [← hxy]
      exact div_nonneg (sub_nonneg.mpr (FSW.listMin_le_of_mem xs x hx)) (le_of_lt hpos)
    · rw [← hxy, div_le_one hpos]
      have := FSW.le_listMax_of_mem xs x hx
      linarith

/-- Witness for C4: scaling the non-degenerate column [1, 3] follows the
formula and its values 0 and 1 lie in [0, 1]. -/
theorem min_max_scale_formula_and_range_witness :
    FSW.minMaxScale [(1 : ℚ), 3]
      = [(1 : ℚ), 3].map
          (fun x => (x - FSW.listMin [(1 : ℚ), 3]) / (FSW.listMax [(1 : ℚ), 3] - FSW.listMin [(1 : ℚ), 3]))
    ∧ ∀ y ∈ FSW.minMaxScale [(1 : ℚ), 3], 0 ≤ y ∧ y ≤ 1 :=
  min_max_scale_formula_and_range [(1 : ℚ), 3]
    (by norm_num [FSW.listMin, FSW.listMax])

/-- C5: the divisor of the min-max scaling step is never zero, because the
library guards a degenerate (constant) column by replacing the zero data
range with 1; scaling a constant column therefore raises no division
error and returns the defined all-zero column. -/
theorem min_max_scale_constant_column (xs : List ℚ) :
    FSW.scaleRange xs ≠ 0
    ∧ (FSW.listMax xs = FSW.listMin xs →
        FSW.minMaxScale xs = xs.map (fun _ => 0)) := by
  constructor
  · unfold FSW.scaleRange
    split
    · norm_num
    · next hne => exact hne
  · intro hdeg
    have hzero : FSW.listMax xs - FSW.listMin xs = 0 := by rw [hdeg, sub_self]
    have hrange : FSW.scaleRange xs = 1 := by
      unfold FSW.scaleRange
      rw [if_pos hzero]
    unfold FSW.minMaxScale
    rw [hrange]
    refine List.map_congr_left ?_
    intro x hx
    have h1 := FSW.listMin_le_of_mem xs x hx
    have h2 := FSW.le_listMax_of_mem xs x hx
    rw [hdeg] at h2
    have : x = FSW.listMin xs := le_antisymm h2 h1
    rw [this]
    simp

/-- Witness for C5: on the constant column [5, 5] the divisor is nonzero
and the scaled column is the all-zero column. -/
theorem min_max_scale_constant_column_witness :
    FSW.scaleRange [(5 : ℚ), 5] ≠ 0
    ∧ FSW.minMaxScale [(5 : ℚ), 5] = [(5 : ℚ), 5].map (fun _ => 0) :=
  ⟨(min_max_scale_constant_column [(5 : ℚ), 5]).1,
   (min_max_scale_constant_column [(5 : ℚ), 5]).2
     (by norm_num [FSW.listMax, FSW.listMin])⟩

/-- C6: label encoding is deterministic and stable: running fit_transform
on the same column twice, from any two prior encoder states, yields the
same integer codes and the same fitted classes; each value is coded by its
index in the sorted list of distinct values of the column, and distinct
values receive codes in their sorted order. -/
theorem label_encoding_stable {α : Type} [LinearOrder α]
    (st₁ st₂ : FSW.LabelEncoderState α) (xs : List α) :
    FSW.LabelEncoder.fit_transform st₁ xs = FSW.LabelEncoder.fit_transform st₂ xs
    ∧ (FSW.LabelEncoder.fit_transform st₁ xs).1
        = xs.map (fun x => (FSW.npUnique xs).indexOf x)
    ∧ (FSW.npUnique xs).Sorted (· ≤ ·)
    ∧ (∀ a, a ∈ FSW.npUnique xs ↔ a ∈ xs)
    ∧ ∀ a ∈ xs, ∀ b ∈ xs, a < b →
        (FSW.npUnique xs).indexOf a < (FSW.npUnique xs).indexOf b := by
  obtain ⟨hsort, hnodup, hmem⟩ := FSW.npUnique_spec xs
  refine ⟨rfl, rfl, hsort, hmem, ?_⟩
  intro a ha b hb hab
  exact FSW.indexOf_lt_indexOf_of_sorted (FSW.npUnique xs) hsort hnodup
    a ((hmem a).mpr ha) b ((hmem b).mpr hb) hab

/-- Witness for C6: encoding the is_reordered column [1, 1, 0] from two
different prior encoder states gives identical results, and the distinct
values 0 and 1 receive codes in sorted order. -/
theorem label_encoding_stable_witness :
    FSW.LabelEncoder.fit_transform (⟨[]⟩ : FSW.LabelEncoderState ℕ) [1, 1, 0]
      = FSW.LabelEncoder.fit_transform (⟨[5]⟩ : FSW.LabelEncoderState ℕ) [1, 1, 0]
    ∧ (FSW.npUnique [1, 1, 0]).indexOf 0 < (FSW.npUnique [1, 1, 0]).indexOf 1 :=
  ⟨(label_encoding_stable (⟨[]⟩ : FSW.LabelEncoderState ℕ) ⟨[5]⟩ [1, 1, 0]).1,
   (label_encoding_stable (⟨[]⟩ : FSW.LabelEncoderState ℕ) ⟨[5]⟩ [1, 1, 0]).2.2.2.2
     0 (by decide) 1 (by decide) (by decide)⟩

/-- C8: the bulk ingestion step is all-or-nothing: after the ingest call
returns, a nonzero count of failed rows raises AssertionError and a zero
count completes without error. -/
theorem ingest_all_or_nothing (ingest : List String → FSW.IngestResponse)
    (rows : List String) :
    ((ingest rows).failed_rows.length ≠ 0 →
      FSW.ingest_data ingest rows = Except.error "AssertionError")
    ∧ ((ingest rows).failed_rows.length = 0 →
      FSW.ingest_data ingest rows = Except.ok ()) := by
  constructor
  · intro h
    unfold FSW.ingest_data
    rw [if_neg h]
  · intro h
    unfold FSW.ingest_data
    rw [if_pos h]

/-- Witness for C8: an ingest reporting one failed row raises
AssertionError, and an ingest reporting no failed rows completes. -/
theorem ingest_all_or_nothing_witness :
    FSW.ingest_data (fun _ => ⟨[0]⟩) ["row"] = Except.error "AssertionError"
    ∧ FSW.ingest_data (fun _ => ⟨[]⟩) ["row"] = Except.ok () :=
  ⟨(ingest_all_or_nothing (fun _ => ⟨[0]⟩) ["row"]).1 (by decide),
   (ingest_all_or_nothing (fun _ => ⟨[]⟩) ["row"]).2 (by decide)⟩

/-- C9: moving the is_reordered target column to position 0 before the
model-training handoff changes nothing else: the result is exactly the
target column followed by every other column with its values in the
original relative order, and the multiset of columns is unchanged. -/
theorem move_target_to_front (name : String) (col : List ℚ)
    (xs ys : List (String × List ℚ)) (hx : ∀ p ∈ xs, p.1 ≠ name) :
    FSW.moveToFront name (xs ++ (name, col) :: ys) = some ((name, col) :: (xs ++ ys))
    ∧ ((name, col) :: (xs ++ ys)).Perm (xs ++ (name, col) :: ys) := by
  constructor
  · unfold FSW.moveToFront
    rw [FSW.popColumn_append name col xs ys hx]
    rfl
  · exact List.perm_middle.symm

/-- Witness for C9: moving is_reordered to the front of a three-column
table puts it first, keeps the other two columns in order with their
values, and permutes nothing away. -/
theorem move_target_to_front_witness :
    FSW.moveToFront "is_reordered"
        ([("f1", [(1 : ℚ)])] ++ ("is_reordered", [(0 : ℚ), 1]) :: [("f2", [(2 : ℚ)])])
      = some (("is_reordered", [(0 : ℚ), 1]) :: ([("f1", [(1 : ℚ)])] ++ [("f2", [(2 : ℚ)])]))
    ∧ (("is_reordered", [(0 : ℚ), 1]) :: ([("f1", [(1 : ℚ)])] ++ [("f2", [(2 : ℚ)])])).Perm
        ([("f1", [(1 : ℚ)])] ++ ("is_reordered", [(0 : ℚ), 1]) :: [("f2", [(2 : ℚ)])]) :=
  move_target_to_front "is_reordered" [(0 : ℚ), 1]
    [("f1", [(1 : ℚ)])] [("f2", [(2 : ℚ)])]
    (by intro p hp; rw [List.mem_singleton.mp hp]; decide)
